import Mathlib

/-!
Verification of the Hack-Bell PII redaction core.

This development shallowly embeds the detection pipeline of the repository:
`src/detection/pipeline.ts` (cross-layer merger, retry wrapper),
`src/detection/gemini.ts` (semantic classifier response handling, legacy
entity detection, bbox finder), the matching engine
(`buildSpatialMap`, `calculateRedactionZones`, `mergeAdjacentZones`) and
layer 1 (`runLayer1Detection`, `mapTextToBBox`, `mergeWordBBoxes`).

Modelling conventions:
- JavaScript numbers are modelled as rationals (ℚ).  All constants that
  appear in the code (0.5, 0.85, 0.9, 1.5, 15000, paddings) are exactly
  representable, so no floating point rounding is lost for the properties
  proved here.
- Strings are Lean strings; character positions are codepoint indices
  (identical to UTF-16 indices for the ASCII and Devanagari BMP text the
  code handles).
- In-place mutation (the `redact` flags of the spatial map) is modelled by
  returning the updated list alongside the computed value.
- `crypto.randomUUID` based ids are modelled by fixed id strings; no claim
  depends on entity ids.
-/

namespace HackBell

/-! ### Generic JavaScript-style helpers -/

/-- Minimum of a list of rationals; `Math.min(...xs)` for nonempty `xs`. -/
def listMin : List ℚ → ℚ
  | [] => 0
  | a :: rest => rest.foldl min a

/-- Maximum of a list of rationals; `Math.max(...xs)` for nonempty `xs`. -/
def listMax : List ℚ → ℚ
  | [] => 0
  | a :: rest => rest.foldl max a

/-- JavaScript `String.prototype.toLowerCase` restricted to per-character
lowering (exact for the ASCII text the matchers compare). -/
def jsToLower (s : String) : String :=
  String.mk (s.data.map Char.toLower)

/-- Does the character list `pat` occur at the head of `l`? -/
def listStartsWith : List Char → List Char → Bool
  | [], _ => true
  | _ :: _, [] => false
  | p :: ps, c :: cs => p == c && listStartsWith ps cs

/-- JavaScript `s.indexOf(pat, start)`: first index `i ≥ start` at which
`pat` occurs in `s`, or `none` (JS returns `-1`). -/
def indexOfFromStr (s pat : String) (start : Nat) : Option Nat :=
  (List.range (s.data.length + 1)).find?
    (fun i => decide (start ≤ i) && listStartsWith pat.data (s.data.drop i))

/-- JavaScript `s.includes(pat)`. -/
def strContains (s pat : String) : Bool :=
  (indexOfFromStr s pat 0).isSome

/-- JavaScript `s.trim()` (whitespace stripped from both ends). -/
def jsTrim (s : String) : String :=
  String.mk (((s.data.dropWhile Char.isWhitespace).reverse.dropWhile
    Char.isWhitespace).reverse)

/-- Accumulating splitter: the maximal non-whitespace runs of a character
list, in order. -/
def splitWsAux : List Char → List Char → List String
  | [], acc => if acc.isEmpty then [] else [String.mk acc.reverse]
  | c :: rest, acc =>
    if c.isWhitespace then
      if acc.isEmpty then splitWsAux rest []
      else String.mk acc.reverse :: splitWsAux rest []
    else splitWsAux rest (c :: acc)

/-- The whitespace-separated words of `s`, all nonempty. -/
def wordsOf (s : String) : List String := splitWsAux s.data []

/-- JavaScript `s.trim().split(/\s+/)`: `[""]` on all-whitespace input,
otherwise the whitespace-separated words, none of them empty. -/
def jsTrimSplitWs (s : String) : List String :=
  if (wordsOf s).isEmpty then [""] else wordsOf s

/-- JavaScript `s.split(/\s+/).filter(t => t.length > 0)` (empty pieces
produced by leading/trailing whitespace are filtered, leaving exactly the
words). -/
def splitWsF (s : String) : List String := wordsOf s

/-- JavaScript `s.substring(a, b)` (indices clamped to the string length and
swapped when out of order). -/
def jsSubstring (s : String) (a b : Nat) : String :=
  let n := s.data.length
  let x := Nat.min a n
  let y := Nat.min b n
  let lo := Nat.min x y
  let hi := Nat.max x y
  String.mk ((s.data.drop lo).take (hi - lo))

/-- JavaScript `Math.ceil(k * 0.6)` for a natural `k` (exact for the list
lengths that occur: the double product never crosses an integer). -/
def ceil60 (k : Nat) : Nat := (3 * k + 4) / 5

/-- JavaScript `Math.ceil(k / 2)` for a natural `k`. -/
def ceilHalf (k : Nat) : Nat := (k + 1) / 2

/-! ### Data model (src/types.ts) -/

/-- Closed PII category vocabulary (`PIIType` in src/types.ts). -/
inductive PIIType where
  | AADHAAR | PAN | CREDIT_CARD | PHONE | NAME
  | ADDRESS | MEDICAL | EMAIL | DOB | SENSITIVE
deriving DecidableEq, Repr

/-- The string value of a `PIIType` member (TS types are string unions, and
`requiredFields` is compared against these strings). -/
def piiTypeName : PIIType → String
  | .AADHAAR => "AADHAAR"
  | .PAN => "PAN"
  | .CREDIT_CARD => "CREDIT_CARD"
  | .PHONE => "PHONE"
  | .NAME => "NAME"
  | .ADDRESS => "ADDRESS"
  | .MEDICAL => "MEDICAL"
  | .EMAIL => "EMAIL"
  | .DOB => "DOB"
  | .SENSITIVE => "SENSITIVE"

/-- `BoundingBox` from src/types.ts. -/
structure BoundingBox where
  x : ℚ
  y : ℚ
  w : ℚ
  h : ℚ
  pageIndex : Nat
deriving DecidableEq, Repr

/-- `OCRWord` from src/types.ts. -/
structure OCRWord where
  text : String
  confidence : ℚ
  bbox : BoundingBox
deriving DecidableEq, Repr

/-- `DetectedEntity` from src/types.ts. -/
structure DetectedEntity where
  id : String
  type : PIIType
  value : String
  confidence : ℚ
  bbox : BoundingBox
  masked : Bool
  layer : Nat
deriving DecidableEq, Repr

/-- `SpatialMapEntry`: an OCR word annotated with a mutable redact flag
(working state of the matching engine). -/
structure SpatialMapEntry where
  text : String
  left : ℚ
  top : ℚ
  width : ℚ
  height : ℚ
  pageIndex : Nat
  redact : Bool
deriving DecidableEq, Repr

/-- `RedactionZone` produced by the matching engine. -/
structure RedactionZone where
  x : ℚ
  y : ℚ
  w : ℚ
  h : ℚ
  pageIndex : Nat
  matchedPhrase : String
  matchedWords : List String
deriving DecidableEq, Repr

def dummyEntry : SpatialMapEntry := ⟨"", 0, 0, 0, 0, 0, false⟩

def dummyWord : OCRWord := ⟨"", 0, ⟨0, 0, 0, 0, 0⟩⟩

/-! ### Cross-layer merger (src/detection/pipeline.ts, deduplicateEntities
and boxesOverlap) -/

/-- Horizontal overlap extent of two boxes (`overlapX` in `boxesOverlap`). -/
def overlapX (a b : BoundingBox) : ℚ :=
  max 0 (min (a.x + a.w) (b.x + b.w) - max a.x b.x)

/-- Vertical overlap extent of two boxes (`overlapY` in `boxesOverlap`). -/
def overlapY (a b : BoundingBox) : ℚ :=
  max 0 (min (a.y + a.h) (b.y + b.h) - max a.y b.y)

/-- Intersection area used by `boxesOverlap`. -/
def overlapArea (a b : BoundingBox) : ℚ := overlapX a b * overlapY a b

/-- Area of the smaller of the two boxes (`minArea` in `boxesOverlap`). -/
def minArea (a b : BoundingBox) : ℚ := min (a.w * a.h) (b.w * b.h)

/-- `boxesOverlap` from src/detection/pipeline.ts: the intersection area
exceeds `threshold` times the smaller box's area (and the smaller area is
positive). -/
def boxesOverlap (a b : BoundingBox) (threshold : ℚ) : Bool :=
  decide (0 < minArea a b) && decide (threshold < overlapArea a b / minArea a b)

/-- Stable insertion of an entity into a confidence-descending list: the
entity moves ahead only of strictly lower-confidence entries, so ties keep
their original order, exactly as the stable JS `sort` with comparator
`(a, b) => b.confidence - a.confidence`. -/
def insertByConf (e : DetectedEntity) : List DetectedEntity → List DetectedEntity
  | [] => [e]
  | x :: xs => if x.confidence < e.confidence then e :: x :: xs else x :: insertByConf e xs

/-- Stable sort by confidence descending (`[...entities].sort((a, b) =>
b.confidence - a.confidence)`; the ES2019 stable-sort result is unique for
this consistent comparator, so any stable sort models it). -/
def sortByConfDesc : List DetectedEntity → List DetectedEntity
  | [] => []
  | e :: es => insertByConf e (sortByConfDesc es)

/-- The greedy acceptance loop of `deduplicateEntities`: accept each entity
unless some already-accepted entity is on the same page and overlaps it by
more than half of the smaller area. -/
def dedupLoop : List DetectedEntity → List DetectedEntity → List DetectedEntity
  | [], acc => acc
  | e :: rest, acc =>
    if acc.any (fun ex =>
        ex.bbox.pageIndex == e.bbox.pageIndex && boxesOverlap ex.bbox e.bbox (1/2)) then
      dedupLoop rest acc
    else
      dedupLoop rest (acc ++ [e])

/-- `deduplicateEntities` from src/detection/pipeline.ts. -/
def deduplicateEntities (entities : List DetectedEntity) : List DetectedEntity :=
  dedupLoop (sortByConfDesc entities) []

/-- Steps 6 and 7 of `runDetectionPipeline` (src/detection/pipeline.ts,
lines 85-103): deduplicate the union of all layers, filter by the caller's
confidence threshold, then force `masked = false` on entities whose category
is in `requiredFields`. -/
def pipelineMergeStage (allEntities : List DetectedEntity) (confidenceThreshold : ℚ)
    (requiredFields : List String) : List DetectedEntity :=
  (((deduplicateEntities allEntities).filter
    (fun e => decide (confidenceThreshold ≤ e.confidence))).map
    (fun e => if requiredFields.contains (piiTypeName e.type) then
        { e with masked := false } else e))

/-! ### Retry wrapper (src/detection/pipeline.ts, withRetry) -/

/-- Outcome of one attempt of the wrapped asynchronous function: success
with a value, or a rejection carrying an error message. -/
inductive RetryOutcome (T : Type) where
  | success (t : T)
  | failure (msg : String)

/-- Rate-limit test of `withRetry`: `error.message.includes('429')`. -/
def is429 (msg : String) : Bool := strContains msg ("429")

/-- Recursive core of `withRetry`; `remaining` counts the retries still
allowed (`maxRetries - attempt`), `delays` records every delay slept so far
(each sleep multiplies the next delay by 1.5). -/
def withRetryAux {T : Type} (fn : Nat → RetryOutcome T) :
    Nat → Nat → ℚ → List ℚ → Except String T × List ℚ
  | attempt, remaining, delay, delays =>
    match fn attempt with
    | .success t => (.ok t, delays)
    | .failure msg =>
      if is429 msg then
        match remaining with
        | 0 => (.error msg, delays)
        | r + 1 => withRetryAux fn (attempt + 1) r (delay * (3/2)) (delays ++ [delay])
      else (.error msg, delays)

/-- `withRetry` from src/detection/pipeline.ts, with the attempt outcomes
supplied as a function of the attempt number.  The second component lists
the delays actually slept (one per retry). -/
def withRetry {T : Type} (fn : Nat → RetryOutcome T) (maxRetries : Nat)
    (initialDelayMs : ℚ) : Except String T × List ℚ :=
  withRetryAux fn 0 maxRetries initialDelayMs []

/-- Retry bound of the primary forbidden-list call in `runDetectionPipeline`. -/
def primaryMaxRetries : Nat := 3

/-- Retry bound of the legacy fallback call in `runDetectionPipeline`. -/
def legacyMaxRetries : Nat := 2

/-- Initial backoff delay used for both Gemini calls in
`runDetectionPipeline` (15s). -/
def geminiInitialDelayMs : ℚ := 15000

/-! ### Semantic classifier response handling (src/detection/gemini.ts) -/

/-- The `clean` helper of `findBBoxForString`: lowercase, then keep only
`[a-z0-9]`. -/
def cleanGem (s : String) : String :=
  String.mk ((s.data.map Char.toLower).filter
    (fun c => (decide ('a' ≤ c) && decide (c ≤ 'z')) || (decide ('0' ≤ c) && decide (c ≤ '9'))))

/-- The bbox built by `findBBoxForString` from a run of matched words:
`x` is the FIRST word's left edge and the right edge is the LAST word's
right edge (not a min/max union over the run), while `y`/`h` are the min
top and max bottom of the run. -/
def firstLastBBox (slice : List OCRWord) (pageIndex : Nat) : BoundingBox :=
  { x := (slice.headD dummyWord).bbox.x
    y := listMin (slice.map (fun w => w.bbox.y))
    w := ((slice.getLastD dummyWord).bbox.x + (slice.getLastD dummyWord).bbox.w)
          - (slice.headD dummyWord).bbox.x
    h := listMax (slice.map (fun w => w.bbox.y + w.bbox.h))
          - listMin (slice.map (fun w => w.bbox.y))
    pageIndex := pageIndex }

/-- Does the window of `words` at offset `i` match `needleCleaned`
position by position under `cleanGem`? -/
def gemWindowMatch (words : List OCRWord) (needleCleaned : List String) (i : Nat) : Bool :=
  let slice := (words.drop i).take needleCleaned.length
  slice.length == needleCleaned.length &&
    (slice.zip needleCleaned).all (fun p => cleanGem p.1.text == p.2)

/-- Sequential window pass of `findBBoxForString`: first window whose
cleaned words equal the cleaned needle tokens in order. -/
def gemExactWindow (words : List OCRWord) (needleCleaned : List String)
    (pageIndex : Nat) : Option BoundingBox :=
  if needleCleaned.length ≤ words.length then
    ((List.range (words.length - needleCleaned.length + 1)).find?
      (fun i => gemWindowMatch words needleCleaned i)).map
      (fun i => firstLastBBox ((words.drop i).take needleCleaned.length) pageIndex)
  else none

/-- The `while` loop of the fuzzy branch of `findBBoxForString`: consume
CONSECUTIVE words matching the remaining needle tokens, stopping at the
first mismatch. -/
def consecRun : List OCRWord → List String → List OCRWord
  | _, [] => []
  | [], _ => []
  | w :: ws, t :: ts => if cleanGem w.text == t then w :: consecRun ws ts else []

/-- Fuzzy pass of `findBBoxForString`: scan for a word matching the first
needle token, extend by consecutive matches, accept when at least half of
the needle tokens matched, otherwise keep scanning. -/
def gemFuzzyScan (needleCleaned : List String) (pageIndex : Nat) :
    List OCRWord → Option BoundingBox
  | [] => none
  | w :: rest =>
    if cleanGem w.text == needleCleaned.headD ("") then
      let matched := w :: consecRun rest (needleCleaned.drop 1)
      if ceilHalf needleCleaned.length ≤ matched.length then
        some (firstLastBBox matched pageIndex)
      else gemFuzzyScan needleCleaned pageIndex rest
    else gemFuzzyScan needleCleaned pageIndex rest

/-- `findBBoxForString` from src/detection/gemini.ts. -/
def findBBoxForString (sensitiveText : String) (words : List OCRWord)
    (pageIndex : Nat) : Option BoundingBox :=
  let needleTokens := jsTrimSplitWs sensitiveText
  let needleCleaned := needleTokens.map cleanGem
  match gemExactWindow words needleCleaned pageIndex with
  | some b => some b
  | none =>
    match (if needleTokens.length == 1 then
        words.find? (fun w => cleanGem w.text == needleCleaned.headD (""))
      else none) with
    | some word => some { word.bbox with pageIndex := pageIndex }
    | none => gemFuzzyScan needleCleaned pageIndex words

/-- `CATEGORY_MAP` from src/detection/gemini.ts. -/
def categoryMap : List (String × PIIType) :=
  [("name", .NAME), ("person", .NAME), ("full name", .NAME), ("person name", .NAME),
   ("first name", .NAME), ("last name", .NAME),
   ("phone", .PHONE), ("phone number", .PHONE), ("mobile", .PHONE),
   ("mobile number", .PHONE), ("telephone", .PHONE), ("contact number", .PHONE),
   ("email", .EMAIL), ("email address", .EMAIL),
   ("address", .ADDRESS), ("location", .ADDRESS), ("residence", .ADDRESS),
   ("home address", .ADDRESS),
   ("aadhaar", .AADHAAR), ("aadhar", .AADHAAR), ("uid", .AADHAAR),
   ("aadhaar number", .AADHAAR),
   ("pan", .PAN), ("pan number", .PAN), ("permanent account number", .PAN),
   ("credit card", .CREDIT_CARD), ("card number", .CREDIT_CARD),
   ("debit card", .CREDIT_CARD),
   ("dob", .DOB), ("date of birth", .DOB), ("birth date", .DOB), ("birthday", .DOB),
   ("medical", .MEDICAL), ("health", .MEDICAL), ("diagnosis", .MEDICAL),
   ("disease", .MEDICAL), ("medication", .MEDICAL), ("medical condition", .MEDICAL),
   ("prescription", .MEDICAL)]

/-- `mapCategory` from src/detection/gemini.ts: case-insensitive lookup,
unrecognized categories map to SENSITIVE. -/
def mapCategory (category : String) : PIIType :=
  ((categoryMap.lookup (jsTrim (jsToLower category))).getD .SENSITIVE)

/-- One item of the legacy classifier's JSON response (`{text, category}`).
An absent or non-string `text` is modelled by the empty string, which the
loop skips exactly as the JS falsy test does. -/
structure GeminiItem where
  text : String
  category : String
deriving DecidableEq, Repr

/-- The entity-building loop of `runGeminiDetection` (after response
parsing): deduplicate by lowercased trimmed text, map the category, locate
a bbox, and DROP the item silently when no bbox is found. -/
def geminiItemsLoop (words : List OCRWord) (pageIndex : Nat) :
    List GeminiItem → List String → List DetectedEntity
  | [], _ => []
  | it :: rest, seen =>
    if it.text == "" then geminiItemsLoop words pageIndex rest seen
    else
      let key := jsToLower (jsTrim it.text)
      if seen.contains key then geminiItemsLoop words pageIndex rest seen
      else
        match findBBoxForString (jsTrim it.text) words pageIndex with
        | none => geminiItemsLoop words pageIndex rest (key :: seen)
        | some bbox =>
          { id := "gem_", type := mapCategory it.category, value := jsTrim it.text,
            confidence := 9/10, bbox := bbox, masked := true,
            layer := 2 } :: geminiItemsLoop words pageIndex rest (key :: seen)

/-- The post-parsing core of `runGeminiDetection` from
src/detection/gemini.ts (lines 276-302), taking the parsed items directly. -/
def runGeminiDetectionFromItems (items : List GeminiItem) (words : List OCRWord)
    (pageIndex : Nat) : List DetectedEntity :=
  geminiItemsLoop words pageIndex items []

/-! ### Forbidden-list response parsing (getGeminiForbiddenList) -/

/-- A parsed JSON array element, as far as the filter in
`getGeminiForbiddenList` distinguishes them: a string, or anything else. -/
inductive JItem where
  | jstr (s : String)
  | jother
deriving DecidableEq, Repr

/-- The span matched by `raw.match(/\[[\s\S]*\]/)`: from the first `[` that
has some later `]`, through the LAST `]` of the whole string (the greedy
regex backtracks to the final closing bracket). -/
def extractArraySpan (raw : String) : Option String :=
  let cs := raw.data
  let n := cs.length
  match (List.range n).find? (fun i =>
      cs.getD i ' ' == '[' &&
        (List.range n).any (fun j => decide (i < j) && cs.getD j ' ' == ']')) with
  | none => none
  | some i =>
    let j := ((List.range n).filter (fun j => cs.getD j ' ' == ']')).getLastD 0
    some (String.mk ((cs.drop i).take (j + 1 - i)))

def jsonSkipWs (cs : List Char) : List Char :=
  cs.dropWhile Char.isWhitespace

/-- Table of the common two-character JSON string escapes (`\u` escapes
are not modelled). -/
def jsonEscTable : List (Char × Char) :=
  [('"', '"'), ('\\', '\\'), ('/', '/'), ('n', '\n'), ('t', '\t'), ('r', '\r')]

/-- Translation of a JSON string escape character via the table. -/
def jsonEsc (c : Char) : Option Char := jsonEscTable.lookup c

/-- Parse the body of a JSON string literal (after the opening quote),
returning the string and the input after the closing quote.  The fuel
argument (instantiated with the input length) only forces structural
termination; each step consumes at least one character. -/
def jsonParseStr : Nat → List Char → List Char → Option (String × List Char)
  | 0, _, _ => none
  | _ + 1, _, [] => none
  | fuel + 1, acc, c :: rest =>
    if c == '"' then some (String.mk acc.reverse, rest)
    else if c == '\\' then
      match rest with
      | [] => none
      | e :: rest2 =>
        match jsonEsc e with
        | some d => jsonParseStr fuel (acc ++ [d]) rest2
        | none => none
    else jsonParseStr fuel (acc ++ [c]) rest

/-- Is `tok` a bare JSON scalar token (number, true, false or null)? -/
def jsonBareOk (tok : String) : Bool :=
  tok == "true" || tok == "false" || tok == "null" ||
    (tok != "" && tok.data.all (fun c =>
      (decide ('0' ≤ c) && decide (c ≤ '9')) || c == '-' || c == '+' ||
        c == '.' || c == 'e' || c == 'E'))

/-- Parse one JSON array element: a string literal, or a bare scalar. -/
def jsonParseItem (cs : List Char) : Option (JItem × List Char) :=
  match jsonSkipWs cs with
  | [] => none
  | c :: rest =>
    if c == '"' then
      (jsonParseStr (rest.length + 1) [] rest).map (fun p => (JItem.jstr p.1, p.2))
    else
      let tok := (c :: rest).takeWhile
        (fun d => !(d == ',' || d == ']' || d.isWhitespace))
      if jsonBareOk (String.mk tok) then
        some (JItem.jother, (c :: rest).drop tok.length)
      else none

/-- Parse the elements of a JSON array after the opening `[`, with fuel. -/
def jsonParseItems : Nat → List Char → Option (List JItem × List Char)
  | 0, _ => none
  | fuel + 1, cs =>
    match jsonSkipWs cs with
    | [] => none
    | c :: rest =>
      if c == ']' then some ([], rest)
      else
        match jsonParseItem (c :: rest) with
        | none => none
        | some (item, rem) =>
          match jsonSkipWs rem with
          | [] => none
          | d :: rem2 =>
            if d == ',' then
              (jsonParseItems fuel rem2).map (fun p => (item :: p.1, p.2))
            else if d == ']' then some ([item], rem2)
            else none

/-- Model of the JavaScript `JSON.parse` builtin restricted to flat arrays
of scalars (strings, numbers, booleans, null); nested values and unicode
escapes are rejected, which only narrows the set of accepted inputs. -/
def jsonParseArr (s : String) : Option (List JItem) :=
  match jsonSkipWs s.data with
  | '[' :: rest =>
    match jsonParseItems (rest.length + 1) rest with
    | some (items, rem) => if jsonSkipWs rem == [] then some items else none
    | none => none
  | _ => none

/-- The response-parsing core of `getGeminiForbiddenList` from
src/detection/gemini.ts (lines 186-206): extract the bracketed span, parse
it as JSON, return `[]` on any failure, and silently filter out array
entries that are not strings or are empty after trimming. -/
def parseForbiddenResponse (raw : String) : List String :=
  match extractArraySpan raw with
  | none => []
  | some s =>
    match jsonParseArr s with
    | none => []
    | some items =>
      (items.filterMap (fun it => match it with
        | .jstr t => some t
        | .jother => none)).filter (fun t => jsTrim t != "")

/-! ### Matching engine (matchingEngine.ts: buildSpatialMap,
calculateRedactionZones, mergeAdjacentZones) -/

/-- Padding added on each side of a redaction zone (`REDACTION_PADDING`). -/
def REDACTION_PADDING : ℚ := 5

/-- `buildSpatialMap`: lift OCR words into spatial map entries with a clear
redact flag.  The page parameter is only a default for words without a page
in JS; every modelled bbox carries its page, so it is unused here. -/
def buildSpatialMap (words : List OCRWord) (_pageIndex : Nat) : List SpatialMapEntry :=
  words.map (fun w =>
    { text := w.text, left := w.bbox.x, top := w.bbox.y, width := w.bbox.w,
      height := w.bbox.h, pageIndex := w.bbox.pageIndex, redact := false })

/-- The `clean` helper of `calculateRedactionZones`: lowercase, then keep
only `[a-z0-9]` and the Devanagari block U+0900-U+097F. -/
def cleanZones (s : String) : String :=
  String.mk ((s.data.map Char.toLower).filter
    (fun c => (decide ('a' ≤ c) && decide (c ≤ 'z'))
      || (decide ('0' ≤ c) && decide (c ≤ '9'))
      || (decide (0x900 ≤ c.val) && decide (c.val ≤ 0x97F))))

/-- Build a merged zone over a run of entries: bounding rectangle of the
entries expanded by `REDACTION_PADDING` on all sides; the page index comes
from the first entry. -/
def zoneFromEntries (entries : List SpatialMapEntry) (original : String) : RedactionZone :=
  { x := listMin (entries.map (fun e => e.left)) - REDACTION_PADDING
    y := listMin (entries.map (fun e => e.top)) - REDACTION_PADDING
    w := (listMax (entries.map (fun e => e.left + e.width))
          - listMin (entries.map (fun e => e.left))) + REDACTION_PADDING * 2
    h := (listMax (entries.map (fun e => e.top + e.height))
          - listMin (entries.map (fun e => e.top))) + REDACTION_PADDING * 2
    pageIndex := (entries.headD dummyEntry).pageIndex
    matchedPhrase := original
    matchedWords := entries.map (fun e => e.text) }

/-- Working state of `calculateRedactionZones`: the (mutated) spatial map
and the zones accumulated so far. -/
abbrev ZoneState := List SpatialMapEntry × List RedactionZone

/-- Does the window of the spatial map at offset `i` match the cleaned
phrase tokens position by position? -/
def zoneWindowMatch (m : List SpatialMapEntry) (toks : List String) (i : Nat) : Bool :=
  let seg := (m.drop i).take toks.length
  seg.length == toks.length && (seg.zip toks).all (fun p => cleanZones p.1.text == p.2)

/-- Walk the entries with their indices, setting the redact flag where the
index predicate holds. -/
def markWhere (pred : Nat → Bool) : List SpatialMapEntry → Nat → List SpatialMapEntry
  | [], _ => []
  | e :: rest, idx =>
    (if pred idx then { e with redact := true } else e) :: markWhere pred rest (idx + 1)

/-- Set the redact flag on the entries of a window. -/
def markWindow (m : List SpatialMapEntry) (i k : Nat) : List SpatialMapEntry :=
  markWhere (fun idx => decide (i ≤ idx) && decide (idx < i + k)) m 0

/-- Set the redact flag on the entries at the given indices. -/
def markIdxs (m : List SpatialMapEntry) (idxs : List Nat) : List SpatialMapEntry :=
  markWhere (fun idx => idxs.contains idx) m 0

/-- The exact sliding-window pass of `calculateRedactionZones` for one
multi-word phrase: EVERY matching window marks its entries and emits a
zone. -/
def exactPass (toks : List String) (original : String) (st : ZoneState) : ZoneState :=
  (List.range (st.1.length + 1 - toks.length)).foldl
    (fun st2 i =>
      if zoneWindowMatch st2.1 toks i then
        (markWindow st2.1 i toks.length,
         st2.2 ++ [zoneFromEntries ((st2.1.drop i).take toks.length) original])
      else st2)
    st

/-- The greedy look-ahead of the fallback pass: starting after position `i`
and bounded by `min (m.length) (i + 2 * toks.length)`, collect the indices
of entries matching the remaining phrase tokens in order (gaps allowed). -/
def fallbackCollect (m : List SpatialMapEntry) (toks : List String) (i : Nat) : List Nat :=
  let bound := Nat.min m.length (i + 2 * toks.length)
  ((List.range (bound - (i + 1))).foldl
    (fun (acc : List Nat × Nat) d =>
      let j := i + 1 + d
      if decide (acc.2 < toks.length) &&
          cleanZones (m.getD j dummyEntry).text == toks.getD acc.2 ("") then
        (acc.1 ++ [j], acc.2 + 1)
      else acc)
    ([i], 1)).1

/-- The scan of the fallback pass: find the first entry matching the first
phrase token whose greedy extension reaches at least 60% of the phrase
tokens; mark those entries and emit one zone, then stop. -/
def fallbackScan (toks : List String) (original : String) (m : List SpatialMapEntry)
    (zs : List RedactionZone) : Nat → Nat → ZoneState
  | _, 0 => (m, zs)
  | i, fuel + 1 =>
    if i < m.length then
      if cleanZones (m.getD i dummyEntry).text == toks.headD ("") then
        let idxs := fallbackCollect m toks i
        if ceil60 toks.length ≤ idxs.length then
          (markIdxs m idxs,
           zs ++ [zoneFromEntries (idxs.map (fun j => m.getD j dummyEntry)) original])
        else fallbackScan toks original m zs (i + 1) fuel
      else fallbackScan toks original m zs (i + 1) fuel
    else (m, zs)

/-- The fallback pass for one multi-word phrase, run only when the exact
pass produced no zone labelled with this phrase. -/
def fallbackPass (toks : List String) (original : String) (st : ZoneState) : ZoneState :=
  if st.2.any (fun z => z.matchedPhrase == original) then st
  else fallbackScan toks original st.1 st.2 0 (st.1.length + 1)

/-- The single-word pass: every unmarked entry whose cleaned text is in the
single-word set is marked and emits its own padded zone. -/
def singlePass (singles : List String) (st : ZoneState) : ZoneState :=
  (List.range st.1.length).foldl
    (fun st2 i =>
      let e := st2.1.getD i dummyEntry
      if e.redact then st2
      else
        let cleaned := cleanZones e.text
        if cleaned != "" && singles.contains cleaned then
          (markIdxs st2.1 [i],
           st2.2 ++ [{ x := e.left - REDACTION_PADDING, y := e.top - REDACTION_PADDING,
                       w := e.width + REDACTION_PADDING * 2,
                       h := e.height + REDACTION_PADDING * 2,
                       pageIndex := e.pageIndex, matchedPhrase := e.text,
                       matchedWords := [e.text] }])
        else st2)
    st

/-- Sort comparator of `mergeAdjacentZones`: page, then y with a 5px
tolerance bucket, then x. -/
def cmpZones (a b : RedactionZone) : ℚ :=
  if a.pageIndex ≠ b.pageIndex then (a.pageIndex : ℚ) - (b.pageIndex : ℚ)
  else if |a.y - b.y| > 5 then a.y - b.y
  else a.x - b.x

/-- Stable insertion with respect to `cmpZones` (models the stable JS
`sort`). -/
def insertZone (z : RedactionZone) : List RedactionZone → List RedactionZone
  | [] => [z]
  | w :: ws => if cmpZones z w < 0 then z :: w :: ws else w :: insertZone z ws

/-- Stable sort of zones by `cmpZones`. -/
def zoneSort : List RedactionZone → List RedactionZone
  | [] => []
  | z :: zs => insertZone z (zoneSort zs)

/-- Adjacency test of `mergeAdjacentZones`: same page, and `current` starts
at most 2px past the right and bottom edges of `last` and ends at most 2px
above the top of `last`.  Note the absence of a left-edge gap check. -/
def zoneAdjacent (last current : RedactionZone) : Bool :=
  current.pageIndex == last.pageIndex &&
    decide (current.x ≤ last.x + last.w + 2) &&
    decide (current.y ≤ last.y + last.h + 2) &&
    decide (last.y - 2 ≤ current.y + current.h)

/-- Fold two zones: union of the rectangles, concatenated token lists and
`" | "`-joined phrase labels. -/
def foldZones (last current : RedactionZone) : RedactionZone :=
  { x := min last.x current.x
    y := min last.y current.y
    w := max (last.x + last.w) (current.x + current.w) - min last.x current.x
    h := max (last.y + last.h) (current.y + current.h) - min last.y current.y
    pageIndex := last.pageIndex
    matchedPhrase := last.matchedPhrase ++ " | " ++ current.matchedPhrase
    matchedWords := last.matchedWords ++ current.matchedWords }

/-- The merging loop of `mergeAdjacentZones`, carrying the last element of
the merged list. -/
def mergeLoop (last : RedactionZone) : List RedactionZone → List RedactionZone
  | [] => [last]
  | c :: cs =>
    if zoneAdjacent last c then mergeLoop (foldZones last c) cs
    else last :: mergeLoop c cs

/-- `mergeAdjacentZones` from matchingEngine.ts. -/
def mergeAdjacentZones (zones : List RedactionZone) : List RedactionZone :=
  if zones.length ≤ 1 then zones
  else
    match zoneSort zones with
    | [] => []
    | z :: rest => mergeLoop z rest

/-- Classify the forbidden phrases into single cleaned words and multi-word
phrases with their cleaned tokens (`singleWords` / `multiPhrases`). -/
def classifyPhrases (forbiddenList : List String) : List String × List (String × List String) :=
  forbiddenList.foldl
    (fun (acc : List String × List (String × List String)) phrase =>
      let tokens := splitWsF (jsTrim phrase)
      let cleanedTokens := (tokens.map cleanZones).filter (fun t => t != "")
      if cleanedTokens.length == 0 then acc
      else if cleanedTokens.length == 1 then
        (acc.1 ++ [cleanedTokens.headD ("")], acc.2)
      else (acc.1, acc.2 ++ [(jsTrim phrase, cleanedTokens)]))
    ([], [])

/-- `calculateRedactionZones` from matchingEngine.ts.  The result pairs the
compacted zone list with the spatial map carrying the updated redact flags
(the JS code mutates the map in place). -/
def calculateRedactionZones (spatialMap : List SpatialMapEntry)
    (forbiddenList : List String) : List RedactionZone × List SpatialMapEntry :=
  let parts := classifyPhrases forbiddenList
  let st1 := parts.2.foldl
    (fun st ph => fallbackPass ph.2 ph.1 (exactPass ph.2 ph.1 st))
    (spatialMap, ([] : List RedactionZone))
  let st2 := singlePass parts.1 st1
  (mergeAdjacentZones st2.2, st2.1)

/-! ### Layer 1 and the alignment engine (layer1.ts: runLayer1Detection,
mergeWordBBoxes, mapTextToBBox) -/

/-- `mergeWordBBoxes` from layer1.ts: the min/max union of the words'
boxes. -/
def mergeWordBBoxes (matchingWords : List OCRWord) (pageIndex : Nat) : BoundingBox :=
  let minX := listMin (matchingWords.map (fun w => w.bbox.x))
  let minY := listMin (matchingWords.map (fun w => w.bbox.y))
  let maxX := listMax (matchingWords.map (fun w => w.bbox.x + w.bbox.w))
  let maxY := listMax (matchingWords.map (fun w => w.bbox.y + w.bbox.h))
  { x := minX, y := minY, w := maxX - minX, h := maxY - minY, pageIndex := pageIndex }

/-- The `clean` helper of `mapTextToBBox`: keep `[a-zA-Z0-9]` only (no
lowercasing, unlike the other two cleaners). -/
def cleanMap (s : String) : String :=
  String.mk (s.data.filter
    (fun c => (decide ('a' ≤ c) && decide (c ≤ 'z'))
      || (decide ('A' ≤ c) && decide (c ≤ 'Z'))
      || (decide ('0' ≤ c) && decide (c ≤ '9'))))

/-- Window test of strategy 1a of `mapTextToBBox`. -/
def mapWindowMatch (words : List OCRWord) (cleanedTokens : List String) (i : Nat) : Bool :=
  let slice := (words.drop i).take cleanedTokens.length
  slice.length == cleanedTokens.length &&
    (slice.zip cleanedTokens).all (fun p => cleanMap p.1.text == p.2)

/-- Strategy 1a of `mapTextToBBox`: first contiguous window of OCR words
whose cleaned texts equal the cleaned tokens in order. -/
def mapExactWindow (words : List OCRWord) (cleanedTokens : List String)
    (pageIndex : Nat) : Option BoundingBox :=
  if cleanedTokens.length ≤ words.length then
    ((List.range (words.length - cleanedTokens.length + 1)).find?
      (fun i => mapWindowMatch words cleanedTokens i)).map
      (fun i => mergeWordBBoxes ((words.drop i).take cleanedTokens.length) pageIndex)
  else none

/-- The greedy matcher of strategy 1b of `mapTextToBBox`: walk the
remaining words, consuming the next expected token on each match; gaps are
allowed and there is no look-ahead bound. -/
def gapGreedy : List OCRWord → List String → List OCRWord
  | _, [] => []
  | [], _ => []
  | w :: ws, t :: ts =>
    if cleanMap w.text == t then w :: gapGreedy ws ts else gapGreedy ws (t :: ts)

/-- Strategy 1b of `mapTextToBBox`: find a word matching the first token,
greedily extend (with gaps), accept when at least half the tokens matched,
otherwise keep scanning. -/
def mapFuzzyScan (cleanedTokens : List String) (pageIndex : Nat) :
    List OCRWord → Option BoundingBox
  | [] => none
  | w :: rest =>
    if cleanMap w.text == cleanedTokens.headD ("") then
      let matched := w :: gapGreedy rest (cleanedTokens.drop 1)
      if ceilHalf cleanedTokens.length ≤ matched.length then
        some (mergeWordBBoxes matched pageIndex)
      else mapFuzzyScan cleanedTokens pageIndex rest
    else mapFuzzyScan cleanedTokens pageIndex rest

/-- Strategy 1 of `mapTextToBBox` (token-sequence matching: exact window,
then fuzzy). -/
def mapStrategy1 (matchedText : String) (words : List OCRWord)
    (pageIndex : Nat) : Option BoundingBox :=
  let tokens := splitWsF matchedText
  if decide (0 < tokens.length) && decide (0 < words.length) then
    let cleanedTokens := (tokens.map cleanMap).filter (fun t => t != "")
    if 0 < cleanedTokens.length then
      match mapExactWindow words cleanedTokens pageIndex with
      | some b => some b
      | none => mapFuzzyScan cleanedTokens pageIndex words
    else none
  else none

/-- The word-collecting walk of strategy 2 of `mapTextToBBox`: resolve each
word by forward `indexOf` from the current cursor (skipping unresolvable
words without disturbing the cursor), keep words whose span intersects
`[startIdx, endIdx)`, and stop once a word starts past `endIdx`. -/
def strategy2Collect (fullText : String) (startIdx endIdx : Nat) :
    List OCRWord → Nat → List OCRWord
  | [], _ => []
  | w :: rest, pos =>
    match indexOfFromStr fullText w.text pos with
    | none => strategy2Collect fullText startIdx endIdx rest pos
    | some wordStart =>
      let wordEnd := wordStart + w.text.length
      let tail := if endIdx < wordStart then []
        else strategy2Collect fullText startIdx endIdx rest wordEnd
      if decide (startIdx < wordEnd) && decide (wordStart < endIdx) then w :: tail
      else tail

/-- Strategy 2 of `mapTextToBBox` (character-offset matching). -/
def mapStrategy2 (startIdx endIdx : Nat) (fullText : String)
    (words : List OCRWord) (pageIndex : Nat) : Option BoundingBox :=
  match strategy2Collect fullText startIdx endIdx words 0 with
  | [] => none
  | ws => some (mergeWordBBoxes ws pageIndex)

/-- `mapTextToBBox` from layer1.ts: try strategy 1, then strategy 2, and
fall back to the fixed bbox `⟨0, 0, 100, 20⟩` at the requested page. -/
def mapTextToBBox (startIdx endIdx : Nat) (fullText : String)
    (words : List OCRWord) (pageIndex : Nat) : BoundingBox :=
  let matchedText := jsTrim (jsSubstring fullText startIdx endIdx)
  match mapStrategy1 matchedText words pageIndex with
  | some b => b
  | none =>
    match mapStrategy2 startIdx endIdx fullText words pageIndex with
    | some b => b
    | none => { x := 0, y := 0, w := 100, h := 20, pageIndex := pageIndex }

/-- One raw match produced by the regex layer (`findAllRegexMatches` lives
in a module outside the provided sources, so matches are taken as input). -/
structure RegexMatch where
  type : PIIType
  value : String
  raw : String
  startIndex : Nat
  endIndex : Nat
deriving DecidableEq, Repr

/-- The switch of `runLayer1Detection`: the validity flag and confidence
it computes for one raw match.  The checksum validators
(`verhoeffValidate`, `luhnValidate`, `panValidate`) live in a module
outside the provided sources and are taken as parameters, so every theorem
below holds for ALL validators. -/
def layer1ValidConf (verhoeffValidate luhnValidate panValidate : String → Bool)
    (m : RegexMatch) : Bool × ℚ :=
  match m.type with
  | .AADHAAR =>
    let valid := verhoeffValidate m.value
    (valid, if valid then 1 else 0.6)
  | .CREDIT_CARD =>
    let valid := luhnValidate m.value
    (valid, if valid then 1 else 0.5)
  | .PAN =>
    let valid := panValidate m.value
    (valid, if valid then 1 else 0.7)
  | .PHONE => (true, 0.9)
  | _ => (true, 0.85)

/-- The loop body of `runLayer1Detection`: discard an invalid match whose
demoted confidence is below 0.5, otherwise emit one entity. -/
def layer1Process (verhoeffValidate luhnValidate panValidate : String → Bool)
    (fullText : String) (words : List OCRWord) (pageIndex : Nat)
    (m : RegexMatch) : Option DetectedEntity :=
  let vc := layer1ValidConf verhoeffValidate luhnValidate panValidate m
  if !vc.1 && decide (vc.2 < 1/2) then none
  else some
    { id := "l1_", type := m.type, value := m.raw, confidence := vc.2,
      bbox := mapTextToBBox m.startIndex m.endIndex fullText words pageIndex,
      masked := true, layer := 1 }

/-- `runLayer1Detection` from layer1.ts. -/
def runLayer1Detection (verhoeffValidate luhnValidate panValidate : String → Bool)
    (regexMatches : List RegexMatch) (fullText : String) (words : List OCRWord)
    (pageIndex : Nat) : List DetectedEntity :=
  regexMatches.filterMap
    (layer1Process verhoeffValidate luhnValidate panValidate fullText words pageIndex)

/-! ### Specification-side definition for the refinement claim C7 -/

/-- Modelled from the spec: the min/max union of a list of rectangles given
as (left, top, width, height) quadruples — left = min of lefts, top = min
of tops, right edge = max of left+width, bottom edge = max of top+height. -/
def specMinMaxUnion (rects : List (ℚ × ℚ × ℚ × ℚ)) : ℚ × ℚ × ℚ × ℚ :=
  let lefts := rects.map (fun r => r.1)
  let tops := rects.map (fun r => r.2.1)
  let rights := rects.map (fun r => r.1 + r.2.2.1)
  let bottoms := rects.map (fun r => r.2.1 + r.2.2.2)
  (listMin lefts, listMin tops, listMax rights - listMin lefts,
   listMax bottoms - listMin tops)

/-! ### Concrete inputs used by witnesses and counterexamples -/

def entHigh : DetectedEntity :=
  ⟨"l1_", .AADHAAR, "1234 5678 9012", 9/10, ⟨0, 0, 10, 10, 0⟩, true, 1⟩

def entLow : DetectedEntity :=
  ⟨"gem_", .SENSITIVE, "1234 5678 9012", 6/10, ⟨0, 0, 6, 10, 0⟩, true, 2⟩

def entName : DetectedEntity :=
  ⟨"gem_", .NAME, "Rahul", 9/10, ⟨0, 0, 10, 10, 0⟩, true, 2⟩

def entOther : DetectedEntity :=
  ⟨"gem_", .SENSITIVE, "Pune", 8/10, ⟨0, 0, 10, 10, 1⟩, true, 2⟩

def entNameUnmasked : DetectedEntity := { entName with masked := false }

def fnRateLimited : Nat → RetryOutcome Nat := fun k =>
  if k < 2 then .failure ("Gemini API error 429: rate limited") else .success 42

def fnServerError : Nat → RetryOutcome Nat := fun _ =>
  .failure ("Gemini API error 500: boom")

def cexWordJohn : OCRWord := ⟨"John", 1, ⟨100, 0, 30, 10, 0⟩⟩

def cexWordDoe : OCRWord := ⟨"Doe", 1, ⟨0, 20, 30, 10, 0⟩⟩

def zoneA : RedactionZone := ⟨0, 0, 10, 10, 0, "a", ["a"]⟩

def zoneB : RedactionZone := ⟨11, 0, 10, 10, 0, "b", ["b"]⟩

def zoneFar : RedactionZone := ⟨100, 0, 10, 10, 0, "c", ["c"]⟩

def rawTwoArrays : String := "x [\"a\"] y ]"

def rawOneArray : String := "here: [\"a\", 1, \"\", \" \", \"b\"] done"

def gemWords : List OCRWord :=
  [⟨"John", 1, ⟨0, 0, 30, 10, 0⟩⟩, ⟨"Doe", 1, ⟨40, 0, 30, 10, 0⟩⟩]

def gemItems : List GeminiItem := [⟨"John Doe", "name"⟩, ⟨"zzz", "other"⟩]

def gemEnt : DetectedEntity :=
  ⟨"gem_", .NAME, "John Doe", 9/10, ⟨0, 0, 70, 10, 0⟩, true, 2⟩

/-! ### Shared lemmas -/

theorem mem_insertByConf {a e : DetectedEntity} {l : List DetectedEntity}
    (h : a ∈ insertByConf e l) : a = e ∨ a ∈ l := by
  induction l with
  | nil =>
    rw [insertByConf] at h
    exact Or.inl (List.mem_singleton.mp h)
  | cons x xs ih =>
    rw [insertByConf] at h
    by_cases hc : x.confidence < e.confidence
    · rw [if_pos hc] at h
      rcases List.mem_cons.mp h with h1 | h2
      · exact Or.inl h1
      · exact Or.inr h2
    · rw [if_neg hc] at h
      rcases List.mem_cons.mp h with h1 | h2
      · exact Or.inr (List.mem_cons.mpr (Or.inl h1))
      · rcases ih h2 with h3 | h4
        · exact Or.inl h3
        · exact Or.inr (List.mem_cons.mpr (Or.inr h4))

theorem mem_sortByConfDesc {a : DetectedEntity} {l : List DetectedEntity}
    (h : a ∈ sortByConfDesc l) : a ∈ l := by
  induction l with
  | nil => rw [sortByConfDesc] at h; exact h
  | cons x xs ih =>
    rw [sortByConfDesc] at h
    rcases mem_insertByConf h with h1 | h2
    · exact List.mem_cons.mpr (Or.inl h1)
    · exact List.mem_cons.mpr (Or.inr (ih h2))

theorem mem_dedupLoop {a : DetectedEntity} :
    ∀ (l acc : List DetectedEntity), a ∈ dedupLoop l acc → a ∈ acc ∨ a ∈ l := by
  intro l
  induction l with
  | nil =>
    intro acc h
    rw [dedupLoop] at h
    exact Or.inl h
  | cons e rest ih =>
    intro acc h
    rw [dedupLoop] at h
    by_cases hc : (acc.any (fun ex =>
        ex.bbox.pageIndex == e.bbox.pageIndex && boxesOverlap ex.bbox e.bbox (1/2))) = true
    · rw [if_pos hc] at h
      rcases ih acc h with h1 | h2
      · exact Or.inl h1
      · exact Or.inr (List.mem_cons.mpr (Or.inr h2))
    · rw [if_neg hc] at h
      rcases ih (acc ++ [e]) h with h1 | h2
      · rcases List.mem_append.mp h1 with h3 | h4
        · exact Or.inl h3
        · exact Or.inr (List.mem_cons.mpr (Or.inl (List.mem_singleton.mp h4)))
      · exact Or.inr (List.mem_cons.mpr (Or.inr h2))

theorem mem_deduplicateEntities {a : DetectedEntity} {es : List DetectedEntity}
    (h : a ∈ deduplicateEntities es) : a ∈ es := by
  rw [deduplicateEntities] at h
  rcases mem_dedupLoop _ _ h with h1 | h2
  · exact absurd h1 (List.not_mem_nil a)
  · exact mem_sortByConfDesc h2

/-! ### Claim theorems -/

/-- C1: the cross-layer dedup sorts by confidence descending and greedily
accepts an entity unless an already-accepted same-page entity overlaps it
by more than 50% of the smaller area; for two same-page entities whose
intersection-over-smaller-area ratio exceeds 0.5 with confidences 0.9 and
0.6, only the 0.9 entity survives, whichever order the layers produced
them in. -/
theorem dedup_keeps_higher_confidence (e1 e2 : DetectedEntity)
    (hpage : e1.bbox.pageIndex = e2.bbox.pageIndex)
    (hc1 : e1.confidence = 9/10) (hc2 : e2.confidence = 6/10)
    (hmin : 0 < minArea e1.bbox e2.bbox)
    (hov : 1/2 < overlapArea e1.bbox e2.bbox / minArea e1.bbox e2.bbox) :
    deduplicateEntities [e1, e2] = [e1] ∧ deduplicateEntities [e2, e1] = [e1] := by
  have hlt : e2.confidence < e1.confidence := by rw [hc1, hc2]; norm_num
  have hsort1 : sortByConfDesc [e1, e2] = [e1, e2] := by
    simp only [sortByConfDesc, insertByConf]
    rw [if_pos hlt]
  have hsort2 : sortByConfDesc [e2, e1] = [e1, e2] := by
    simp only [sortByConfDesc, insertByConf]
    rw [if_neg (not_lt.mpr hlt.le)]
  have hover : boxesOverlap e1.bbox e2.bbox (1/2) = true := by
    rw [boxesOverlap, Bool.and_eq_true, decide_eq_true_eq, decide_eq_true_eq]
    exact ⟨hmin, hov⟩
  have hcond : (e1.bbox.pageIndex == e2.bbox.pageIndex &&
      boxesOverlap e1.bbox e2.bbox (1/2)) = true := by
    rw [Bool.and_eq_true, beq_iff_eq]
    exact ⟨hpage, hover⟩
  have hloop : dedupLoop [e1, e2] [] = [e1] := by
    rw [dedupLoop, if_neg (by rw [List.any_nil]; exact Bool.false_ne_true),
      List.nil_append, dedupLoop,
      if_pos (by rw [List.any_cons, List.any_nil, Bool.or_false]; exact hcond),
      dedupLoop]
  exact ⟨by rw [deduplicateEntities, hsort1, hloop],
         by rw [deduplicateEntities, hsort2, hloop]⟩

/-- C1 witness: two concrete fully-overlapping same-page entities with
confidences 0.9 and 0.6. -/
theorem dedup_keeps_higher_confidence_witness :
    deduplicateEntities [entHigh, entLow] = [entHigh] ∧
      deduplicateEntities [entLow, entHigh] = [entHigh] :=
  dedup_keeps_higher_confidence entHigh entLow rfl rfl rfl
    (by norm_num [minArea, entHigh, entLow])
    (by norm_num [overlapArea, overlapX, overlapY, minArea, entHigh, entLow,
      min_def, max_def])

/-- C5: after dedup and confidence filtering, every surviving entity whose
category is in `requiredFields` ends with `masked = false`, and every
surviving entity whose category is not in `requiredFields` is returned
exactly as its layer produced it (same record, in particular the same
`masked` value). -/
theorem required_fields_override (es : List DetectedEntity) (threshold : ℚ)
    (req : List String) (e : DetectedEntity)
    (he : e ∈ pipelineMergeStage es threshold req) :
    (req.contains (piiTypeName e.type) = true → e.masked = false) ∧
    (req.contains (piiTypeName e.type) = false → e ∈ es) := by
  rcases List.mem_map.mp he with ⟨x, hx, hmap⟩
  have hxes : x ∈ es := mem_deduplicateEntities (List.mem_filter.mp hx).1
  by_cases hreq : req.contains (piiTypeName x.type) = true
  · have hex : e = { x with masked := false } := by rw [← hmap, if_pos hreq]
    constructor
    · intro _; rw [hex]
    · intro habs
      have : piiTypeName e.type = piiTypeName x.type := by rw [hex]
      rw [this, hreq] at habs
      exact absurd habs (by simp)
  · have hex : e = x := by rw [← hmap, if_neg hreq]
    constructor
    · intro habs
      rw [hex] at habs
      exact absurd habs hreq
    · intro _; rw [hex]; exact hxes

/-- C5 witness: a required NAME entity is unmasked in the output, and a
non-required entity of another category is returned unchanged. -/
theorem required_fields_override_witness :
    entNameUnmasked.masked = false ∧ entOther ∈ [entName, entOther] := by
  have hcomp : pipelineMergeStage [entName, entOther] (1/2) ["NAME"]
      = [entNameUnmasked, entOther] := by
    norm_num [pipelineMergeStage, deduplicateEntities, sortByConfDesc, insertByConf,
      dedupLoop, boxesOverlap, minArea, overlapArea, overlapX, overlapY,
      piiTypeName, entName, entOther, entNameUnmasked]
    all_goals decide
  constructor
  · exact (required_fields_override [entName, entOther] (1/2) ["NAME"] entNameUnmasked
      (by rw [hcomp]; exact List.mem_cons_self _ _)).1 (by decide)
  · exact (required_fields_override [entName, entOther] (1/2) ["NAME"] entOther
      (by rw [hcomp]; exact List.mem_cons.mpr (Or.inr (List.mem_singleton.mpr rfl)))).2
      (by decide)

theorem withRetryAux_success {T : Type} (fn : Nat → RetryOutcome T)
    (attempt remaining : Nat) (delay : ℚ) (delays : List ℚ) (t : T)
    (h : fn attempt = .success t) :
    withRetryAux fn attempt remaining delay delays = (.ok t, delays) := by
  rw [withRetryAux.eq_def]
  dsimp only
  rw [h]

theorem withRetryAux_fail429 {T : Type} (fn : Nat → RetryOutcome T)
    (attempt r : Nat) (delay : ℚ) (delays : List ℚ) (msg : String)
    (h : fn attempt = .failure msg) (h9 : is429 msg = true) :
    withRetryAux fn attempt (r + 1) delay delays
      = withRetryAux fn (attempt + 1) r (delay * (3/2)) (delays ++ [delay]) := by
  rw [withRetryAux.eq_def]
  dsimp only
  rw [h]
  dsimp only
  rw [if_pos h9]

theorem withRetryAux_failOther {T : Type} (fn : Nat → RetryOutcome T)
    (attempt remaining : Nat) (delay : ℚ) (delays : List ℚ) (msg : String)
    (h : fn attempt = .failure msg) (h9 : is429 msg = false) :
    withRetryAux fn attempt remaining delay delays = (.error msg, delays) := by
  rw [withRetryAux.eq_def]
  dsimp only
  rw [h]
  dsimp only
  rw [if_neg (by simp [h9])]

theorem withRetryAux_fail429_zero {T : Type} (fn : Nat → RetryOutcome T)
    (attempt : Nat) (delay : ℚ) (delays : List ℚ) (msg : String)
    (h : fn attempt = .failure msg) (h9 : is429 msg = true) :
    withRetryAux fn attempt 0 delay delays = (.error msg, delays) := by
  rw [withRetryAux.eq_def]
  dsimp only
  rw [h]
  dsimp only
  rw [if_pos h9]

theorem withRetryAux_delay_bound {T : Type} (fn : Nat → RetryOutcome T) :
    ∀ (remaining attempt : Nat) (delay : ℚ) (delays : List ℚ),
    (withRetryAux fn attempt remaining delay delays).2.length ≤ delays.length + remaining := by
  intro remaining
  induction remaining with
  | zero =>
    intro attempt delay delays
    rcases hfn : fn attempt with t | msg
    · rw [withRetryAux_success fn attempt 0 delay delays t hfn]
      simp
    · by_cases h9 : is429 msg = true
      · rw [withRetryAux_fail429_zero fn attempt delay delays msg hfn h9]
        simp
      · rw [withRetryAux_failOther fn attempt 0 delay delays msg hfn
          (by simpa using h9)]
        simp
  | succ r ih =>
    intro attempt delay delays
    rcases hfn : fn attempt with t | msg
    · rw [withRetryAux_success fn attempt (r + 1) delay delays t hfn]
      simp
    · by_cases h9 : is429 msg = true
      · rw [withRetryAux_fail429 fn attempt r delay delays msg hfn h9]
        have hrec := ih (attempt + 1) (delay * (3/2)) (delays ++ [delay])
        simp only [List.length_append, List.length_singleton] at hrec
        omega
      · rw [withRetryAux_failOther fn attempt (r + 1) delay delays msg hfn
          (by simpa using h9)]
        simp

/-- C4: the retry wrapper retries only on failures whose message carries
the 429 signal; a non-rate-limit failure on the first attempt propagates
immediately with no delay; a call that fails twice with rate-limit
failures and then succeeds returns the success after exactly two delayed
retries (delays `d` then `d * 1.5`), both under the primary bound of 3
retries and under the legacy fallback bound of 2; and the number of
delayed retries never exceeds the bound. -/
theorem withRetry_contract :
    (∀ (T : Type) (fn : Nat → RetryOutcome T) (m : Nat) (d : ℚ) (msg : String),
      fn 0 = .failure msg → is429 msg = false →
      withRetry fn m d = (.error msg, [])) ∧
    (∀ (T : Type) (fn : Nat → RetryOutcome T) (d : ℚ) (t : T) (msg0 msg1 : String),
      fn 0 = .failure msg0 → is429 msg0 = true →
      fn 1 = .failure msg1 → is429 msg1 = true →
      fn 2 = .success t →
      withRetry fn primaryMaxRetries d = (.ok t, [d, d * (3/2)]) ∧
      withRetry fn legacyMaxRetries d = (.ok t, [d, d * (3/2)])) ∧
    (∀ (T : Type) (fn : Nat → RetryOutcome T) (m : Nat) (d : ℚ),
      (withRetry fn m d).2.length ≤ m) := by
  refine ⟨?_, ?_, ?_⟩
  · intro T fn m d msg h0 h9
    simp [withRetry, withRetryAux, h0, h9]
  · intro T fn d t msg0 msg1 h0 h90 h1 h91 h2
    constructor
    · rw [withRetry]
      show withRetryAux fn 0 (2 + 1) d [] = _
      rw [withRetryAux_fail429 fn 0 2 d [] msg0 h0 h90]
      show withRetryAux fn 1 (1 + 1) (d * (3/2)) [d] = _
      rw [withRetryAux_fail429 fn 1 1 (d * (3/2)) [d] msg1 h1 h91]
      show withRetryAux fn 2 (0 + 1) (d * (3/2) * (3/2)) [d, d * (3/2)] = _
      rw [withRetryAux_success fn 2 (0 + 1) (d * (3/2) * (3/2)) [d, d * (3/2)] t h2]
    · rw [withRetry]
      show withRetryAux fn 0 (1 + 1) d [] = _
      rw [withRetryAux_fail429 fn 0 1 d [] msg0 h0 h90]
      show withRetryAux fn 1 (0 + 1) (d * (3/2)) [d] = _
      rw [withRetryAux_fail429 fn 1 0 (d * (3/2)) [d] msg1 h1 h91]
      show withRetryAux fn 2 0 (d * (3/2) * (3/2)) [d, d * (3/2)] = _
      rw [withRetryAux_success fn 2 0 (d * (3/2) * (3/2)) [d, d * (3/2)] t h2]
  · intro T fn m d
    have h := withRetryAux_delay_bound fn m 0 d []
    simpa [withRetry] using h

/-- C4 witness: a concrete outcome sequence failing twice with 429 then
succeeding yields the success after delays 15000 and 22500, and a concrete
non-429 failure propagates with no delay. -/
theorem withRetry_contract_witness :
    withRetry fnRateLimited 3 15000 = (.ok 42, [15000, 22500]) ∧
    withRetry fnServerError 3 15000 = (.error ("Gemini API error 500: boom"), []) := by
  constructor
  · have h := (withRetry_contract.2.1 Nat fnRateLimited 15000 42
      "Gemini API error 429: rate limited" "Gemini API error 429: rate limited"
      rfl (by decide) rfl (by decide) rfl).1
    show withRetry fnRateLimited primaryMaxRetries 15000 = (.ok 42, [15000, 22500])
    rw [h]
    norm_num
  · exact withRetry_contract.1 Nat fnServerError 3 15000 _ rfl (by decide)

/-- C2 counterexample: on an input where both alignment strategies fail
(empty OCR word list), `mapTextToBBox` returns the fixed bbox
`⟨0, 0, 100, 20⟩` at the requested page — a 100×20 rectangle at the
origin, NOT a zero-size bbox as the claim states. -/
theorem mapTextToBBox_sentinel_not_zero_size :
    mapTextToBBox 0 2 ("ab") [] 7 = ⟨0, 0, 100, 20, 7⟩ ∧
      mapTextToBBox 0 2 ("ab") [] 7 ≠ ⟨0, 0, 0, 0, 7⟩ := by
  constructor
  · rfl
  · intro h
    rw [show mapTextToBBox 0 2 ("ab") [] 7 = ⟨0, 0, 100, 20, 7⟩ from rfl] at h
    have hw := congrArg BoundingBox.w h
    norm_num at hw

/-- C2 (amended): whenever both the token-sequence strategy (exact window
and partial fallback) and the character-offset strategy fail,
`mapTextToBBox` returns the fixed sentinel bbox of width 100 and height 20
at the origin of the requested page, rather than failing. -/
theorem mapTextToBBox_fallback_sentinel (startIdx endIdx : Nat) (fullText : String)
    (words : List OCRWord) (p : Nat)
    (h1 : mapStrategy1 (jsTrim (jsSubstring fullText startIdx endIdx)) words p = none)
    (h2 : mapStrategy2 startIdx endIdx fullText words p = none) :
    mapTextToBBox startIdx endIdx fullText words p = ⟨0, 0, 100, 20, p⟩ := by
  simp only [mapTextToBBox, h1, h2]

/-- C2 witness: a concrete request (empty word list) on which both
strategies fail and the sentinel is returned. -/
theorem mapTextToBBox_fallback_sentinel_witness :
    mapTextToBBox 0 2 ("ab") [] 7 = ⟨0, 0, 100, 20, 7⟩ :=
  mapTextToBBox_fallback_sentinel 0 2 ("ab") [] 7 rfl rfl

set_option maxHeartbeats 2000000 in
/-- C3: on the token sequence John/Doe/lives/in/Pune with forbidden list
["John Doe"], the matcher emits exactly one zone — the bounding rectangle
of tokens 0 and 1 expanded by the 5px padding on all four sides — and
marks exactly those two entries redact = true, whatever the token
geometry and page are. -/
theorem phrase_match_zone_and_flags
    (l0 t0 w0 h0 l1 t1 w1 h1 l2 t2 w2 h2 l3 t3 w3 h3 l4 t4 w4 h4 : ℚ) (p : Nat) :
    calculateRedactionZones
      [⟨"John", l0, t0, w0, h0, p, false⟩, ⟨"Doe", l1, t1, w1, h1, p, false⟩,
       ⟨"lives", l2, t2, w2, h2, p, false⟩, ⟨"in", l3, t3, w3, h3, p, false⟩,
       ⟨"Pune", l4, t4, w4, h4, p, false⟩]
      ["John Doe"]
    = ([{ x := min l0 l1 - 5, y := min t0 t1 - 5,
          w := max (l0 + w0) (l1 + w1) - min l0 l1 + 5 * 2,
          h := max (t0 + h0) (t1 + h1) - min t0 t1 + 5 * 2,
          pageIndex := p, matchedPhrase := "John Doe",
          matchedWords := ["John", "Doe"] }],
       [⟨"John", l0, t0, w0, h0, p, true⟩, ⟨"Doe", l1, t1, w1, h1, p, true⟩,
        ⟨"lives", l2, t2, w2, h2, p, false⟩, ⟨"in", l3, t3, w3, h3, p, false⟩,
        ⟨"Pune", l4, t4, w4, h4, p, false⟩]) := by
  have hs1 : exactPass ["john", "doe"] ("John Doe")
      ([⟨"John", l0, t0, w0, h0, p, false⟩, ⟨"Doe", l1, t1, w1, h1, p, false⟩,
        ⟨"lives", l2, t2, w2, h2, p, false⟩, ⟨"in", l3, t3, w3, h3, p, false⟩,
        ⟨"Pune", l4, t4, w4, h4, p, false⟩], [])
      = ([⟨"John", l0, t0, w0, h0, p, true⟩, ⟨"Doe", l1, t1, w1, h1, p, true⟩,
          ⟨"lives", l2, t2, w2, h2, p, false⟩, ⟨"in", l3, t3, w3, h3, p, false⟩,
          ⟨"Pune", l4, t4, w4, h4, p, false⟩],
         [{ x := min l0 l1 - 5, y := min t0 t1 - 5,
            w := max (l0 + w0) (l1 + w1) - min l0 l1 + 5 * 2,
            h := max (t0 + h0) (t1 + h1) - min t0 t1 + 5 * 2,
            pageIndex := p, matchedPhrase := "John Doe",
            matchedWords := ["John", "Doe"] }]) := rfl
  have hs2 : fallbackPass ["john", "doe"] ("John Doe")
      ([⟨"John", l0, t0, w0, h0, p, true⟩, ⟨"Doe", l1, t1, w1, h1, p, true⟩,
        ⟨"lives", l2, t2, w2, h2, p, false⟩, ⟨"in", l3, t3, w3, h3, p, false⟩,
        ⟨"Pune", l4, t4, w4, h4, p, false⟩],
       [{ x := min l0 l1 - 5, y := min t0 t1 - 5,
          w := max (l0 + w0) (l1 + w1) - min l0 l1 + 5 * 2,
          h := max (t0 + h0) (t1 + h1) - min t0 t1 + 5 * 2,
          pageIndex := p, matchedPhrase := "John Doe",
          matchedWords := ["John", "Doe"] }])
      = ([⟨"John", l0, t0, w0, h0, p, true⟩, ⟨"Doe", l1, t1, w1, h1, p, true⟩,
          ⟨"lives", l2, t2, w2, h2, p, false⟩, ⟨"in", l3, t3, w3, h3, p, false⟩,
          ⟨"Pune", l4, t4, w4, h4, p, false⟩],
         [{ x := min l0 l1 - 5, y := min t0 t1 - 5,
            w := max (l0 + w0) (l1 + w1) - min l0 l1 + 5 * 2,
            h := max (t0 + h0) (t1 + h1) - min t0 t1 + 5 * 2,
            pageIndex := p, matchedPhrase := "John Doe",
            matchedWords := ["John", "Doe"] }]) := rfl
  have hs3 : singlePass []
      ([⟨"John", l0, t0, w0, h0, p, true⟩, ⟨"Doe", l1, t1, w1, h1, p, true⟩,
        ⟨"lives", l2, t2, w2, h2, p, false⟩, ⟨"in", l3, t3, w3, h3, p, false⟩,
        ⟨"Pune", l4, t4, w4, h4, p, false⟩],
       [{ x := min l0 l1 - 5, y := min t0 t1 - 5,
          w := max (l0 + w0) (l1 + w1) - min l0 l1 + 5 * 2,
          h := max (t0 + h0) (t1 + h1) - min t0 t1 + 5 * 2,
          pageIndex := p, matchedPhrase := "John Doe",
          matchedWords := ["John", "Doe"] }])
      = ([⟨"John", l0, t0, w0, h0, p, true⟩, ⟨"Doe", l1, t1, w1, h1, p, true⟩,
          ⟨"lives", l2, t2, w2, h2, p, false⟩, ⟨"in", l3, t3, w3, h3, p, false⟩,
          ⟨"Pune", l4, t4, w4, h4, p, false⟩],
         [{ x := min l0 l1 - 5, y := min t0 t1 - 5,
            w := max (l0 + w0) (l1 + w1) - min l0 l1 + 5 * 2,
            h := max (t0 + h0) (t1 + h1) - min t0 t1 + 5 * 2,
            pageIndex := p, matchedPhrase := "John Doe",
            matchedWords := ["John", "Doe"] }]) := rfl
  have hs4 : mergeAdjacentZones
      [{ x := min l0 l1 - 5, y := min t0 t1 - 5,
         w := max (l0 + w0) (l1 + w1) - min l0 l1 + 5 * 2,
         h := max (t0 + h0) (t1 + h1) - min t0 t1 + 5 * 2,
         pageIndex := p, matchedPhrase := "John Doe",
         matchedWords := ["John", "Doe"] }]
      = [{ x := min l0 l1 - 5, y := min t0 t1 - 5,
           w := max (l0 + w0) (l1 + w1) - min l0 l1 + 5 * 2,
           h := max (t0 + h0) (t1 + h1) - min t0 t1 + 5 * 2,
           pageIndex := p, matchedPhrase := "John Doe",
           matchedWords := ["John", "Doe"] }] := rfl
  rw [calculateRedactionZones,
    show classifyPhrases ["John Doe"] = ([], [("John Doe", ["john", "doe"])]) from rfl]
  dsimp only [List.foldl]
  rw [hs1, hs2, hs3]
  dsimp only
  rw [hs4]

/-- C6: every raw regex match yields exactly one entity (the discard
branch for invalid matches demoted below 0.5 never fires, since the floors
are 0.6, 0.5 and 0.7), whose confidence is 1.0 when the category's
validator accepts the value, the category floor when it rejects it, 0.9
for phone, and 0.85 for every category without a validator — for all
validators, match lists, texts, word lists and pages. -/
theorem layer1_confidence_assignment
    (verhoeffValidate luhnValidate panValidate : String → Bool)
    (regexMatches : List RegexMatch) (fullText : String) (words : List OCRWord)
    (pageIndex : Nat) :
    (runLayer1Detection verhoeffValidate luhnValidate panValidate regexMatches
        fullText words pageIndex).map (fun e => (e.type, e.confidence))
      = regexMatches.map (fun m => (m.type,
          if m.type = .AADHAAR then (if verhoeffValidate m.value then 1 else 0.6)
          else if m.type = .CREDIT_CARD then (if luhnValidate m.value then 1 else 0.5)
          else if m.type = .PAN then (if panValidate m.value then 1 else 0.7)
          else if m.type = .PHONE then 0.9 else (0.85 : ℚ))) := by
  induction regexMatches with
  | nil => rfl
  | cons m ms ih =>
    rw [runLayer1Detection, List.filterMap_cons] at *
    rcases m with ⟨ty, val, raw, si, ei⟩
    cases ty
    case AADHAAR =>
      cases hv : verhoeffValidate val <;>
        simp [layer1Process, layer1ValidConf, hv, ih,
          show ¬((0.6 : ℚ) < 2⁻¹) by norm_num]
    case CREDIT_CARD =>
      cases hv : luhnValidate val <;>
        simp [layer1Process, layer1ValidConf, hv, ih,
          show ¬((0.5 : ℚ) < 2⁻¹) by norm_num]
    case PAN =>
      cases hv : panValidate val <;>
        simp [layer1Process, layer1ValidConf, hv, ih,
          show ¬((0.7 : ℚ) < 2⁻¹) by norm_num]
    all_goals simp [layer1Process, layer1ValidConf, ih]

/-- C7 counterexample: on two matched words where the second lies left of
and below the first, `findBBoxForString` returns a bbox anchored at the
FIRST word's left edge with width measured to the LAST word's right edge —
here even a negative width — instead of the min/max union ⟨0, 0, 130, 30⟩
of the two word boxes. -/
theorem findBBoxForString_not_minmax_union :
    findBBoxForString ("John Doe") [cexWordJohn, cexWordDoe] 0
        = some ⟨100, 0, -70, 30, 0⟩ ∧
      specMinMaxUnion ([cexWordJohn, cexWordDoe].map
        (fun w => (w.bbox.x, w.bbox.y, w.bbox.w, w.bbox.h))) = (0, 0, 130, 30) ∧
      (⟨100, 0, -70, 30, 0⟩ : BoundingBox) ≠ ⟨0, 0, 130, 30, 0⟩ := by
  refine ⟨?_, ?_, ?_⟩
  · have h1 : findBBoxForString ("John Doe") [cexWordJohn, cexWordDoe] 0
        = some (firstLastBBox [cexWordJohn, cexWordDoe] 0) := rfl
    have h2 : firstLastBBox [cexWordJohn, cexWordDoe] 0 = ⟨100, 0, -70, 30, 0⟩ := by
      norm_num [firstLastBBox, listMin, listMax, cexWordJohn, cexWordDoe,
        min_def, max_def]
    rw [h1, h2]
  · norm_num [specMinMaxUnion, listMin, listMax, cexWordJohn, cexWordDoe,
      min_def, max_def]
  · intro h
    have hw := congrArg BoundingBox.w h
    norm_num at hw

/-- C7 (amended): merging multiple tokens into one bbox is the min/max
union of the member boxes in the Alignment Engine (`mergeWordBBoxes`) and
in the Phrase-to-Zone Matcher's zone construction (union expanded by the
5px padding); in the legacy classifier's bbox finder (`firstLastBBox`
inside `findBBoxForString`), only the vertical extent is the min/max union,
while the left edge is the first matched word's left and the right edge
the last matched word's right. -/
theorem merged_bbox_minmax :
    (∀ (ws : List OCRWord) (p : Nat), ws ≠ [] →
      ((mergeWordBBoxes ws p).x, (mergeWordBBoxes ws p).y,
        (mergeWordBBoxes ws p).w, (mergeWordBBoxes ws p).h)
        = specMinMaxUnion (ws.map (fun w => (w.bbox.x, w.bbox.y, w.bbox.w, w.bbox.h)))) ∧
    (∀ (es : List SpatialMapEntry) (orig : String), es ≠ [] →
      ((zoneFromEntries es orig).x, (zoneFromEntries es orig).y,
        (zoneFromEntries es orig).w, (zoneFromEntries es orig).h)
        = ((specMinMaxUnion (es.map (fun e => (e.left, e.top, e.width, e.height)))).1 - 5,
           (specMinMaxUnion (es.map (fun e => (e.left, e.top, e.width, e.height)))).2.1 - 5,
           (specMinMaxUnion (es.map (fun e => (e.left, e.top, e.width, e.height)))).2.2.1 + 10,
           (specMinMaxUnion (es.map (fun e => (e.left, e.top, e.width, e.height)))).2.2.2 + 10)) ∧
    (∀ (slice : List OCRWord) (p : Nat), slice ≠ [] →
      (firstLastBBox slice p).y
          = (specMinMaxUnion (slice.map (fun w => (w.bbox.x, w.bbox.y, w.bbox.w, w.bbox.h)))).2.1 ∧
        (firstLastBBox slice p).h
          = (specMinMaxUnion (slice.map (fun w => (w.bbox.x, w.bbox.y, w.bbox.w, w.bbox.h)))).2.2.2 ∧
        (firstLastBBox slice p).x = (slice.headD dummyWord).bbox.x ∧
        (firstLastBBox slice p).x + (firstLastBBox slice p).w
          = (slice.getLastD dummyWord).bbox.x + (slice.getLastD dummyWord).bbox.w) := by
  refine ⟨?_, ?_, ?_⟩
  · intro ws p _
    simp only [mergeWordBBoxes, specMinMaxUnion, List.map_map, Function.comp_def]
  · intro es orig _
    simp only [zoneFromEntries, specMinMaxUnion, List.map_map, Function.comp_def,
      REDACTION_PADDING, Prod.mk.injEq]
    and_intros <;> first | trivial | ring
  · intro slice p _
    simp only [firstLastBBox, specMinMaxUnion, List.map_map, Function.comp_def]
    and_intros <;> first | trivial | ring

/-- C7 witness: the three clauses instantiated on concrete nonempty
inputs. -/
theorem merged_bbox_minmax_witness :
    ((mergeWordBBoxes [cexWordJohn, cexWordDoe] 0).x,
      (mergeWordBBoxes [cexWordJohn, cexWordDoe] 0).y,
      (mergeWordBBoxes [cexWordJohn, cexWordDoe] 0).w,
      (mergeWordBBoxes [cexWordJohn, cexWordDoe] 0).h)
      = specMinMaxUnion ([cexWordJohn, cexWordDoe].map
          (fun w => (w.bbox.x, w.bbox.y, w.bbox.w, w.bbox.h))) ∧
    (firstLastBBox [cexWordJohn, cexWordDoe] 0).y
      = (specMinMaxUnion ([cexWordJohn, cexWordDoe].map
          (fun w => (w.bbox.x, w.bbox.y, w.bbox.w, w.bbox.h)))).2.1 :=
  ⟨merged_bbox_minmax.1 [cexWordJohn, cexWordDoe] 0 (by simp),
   (merged_bbox_minmax.2.2 [cexWordJohn, cexWordDoe] 0 (by simp)).1⟩

theorem mergeLoop_chain_sep :
    ∀ (rest : List RedactionZone) (last : RedactionZone),
    List.Chain' (fun a b => zoneAdjacent a b = false) (last :: rest) →
    mergeLoop last rest = last :: rest := by
  intro rest
  induction rest with
  | nil => intro last _; rw [mergeLoop]
  | cons c cs ih =>
    intro last h
    rw [mergeLoop, if_neg (by simp [(List.chain'_cons.mp h).1]),
      ih c (List.chain'_cons.mp h).2]

/-- C8 counterexample: two pairwise non-overlapping zones (separated by a
1px horizontal gap) are folded into a single zone, so mergeAdjacentZones
is not the identity on this pairwise non-overlapping input. -/
theorem mergeAdjacentZones_folds_nonoverlapping :
    zoneA.x + zoneA.w < zoneB.x ∧
      (mergeAdjacentZones [zoneA, zoneB]).length = 1 ∧
      mergeAdjacentZones [zoneA, zoneB] ≠ [zoneA, zoneB] := by
  have hlen : (mergeAdjacentZones [zoneA, zoneB]).length = 1 := by
    norm_num [mergeAdjacentZones, zoneSort, insertZone, cmpZones, mergeLoop,
      zoneAdjacent, foldZones, zoneA, zoneB]
  refine ⟨by norm_num [zoneA, zoneB], hlen, ?_⟩
  intro h
  rw [h] at hlen
  simp at hlen

/-- C8 (amended): `mergeAdjacentZones` is the identity on a zone list that
is already in its sort order and in which no zone satisfies the adjacency
test with its predecessor; two sorted zones satisfying the adjacency test
(same page, `b.x ≤ a.x + a.w + 2`, `b.y ≤ a.y + a.h + 2`,
`a.y - 2 ≤ b.y + b.h` — there is no left-edge gap check) are folded into
one zone whose rectangle is the union and whose labels and token lists are
concatenated. -/
theorem mergeAdjacentZones_sorted_separated :
    (∀ zs : List RedactionZone, zoneSort zs = zs →
      List.Chain' (fun a b => zoneAdjacent a b = false) zs →
      mergeAdjacentZones zs = zs) ∧
    (∀ a b : RedactionZone, zoneSort [a, b] = [a, b] → zoneAdjacent a b = true →
      mergeAdjacentZones [a, b]
        = [{ x := min a.x b.x, y := min a.y b.y,
             w := max (a.x + a.w) (b.x + b.w) - min a.x b.x,
             h := max (a.y + a.h) (b.y + b.h) - min a.y b.y,
             pageIndex := a.pageIndex,
             matchedPhrase := a.matchedPhrase ++ " | " ++ b.matchedPhrase,
             matchedWords := a.matchedWords ++ b.matchedWords }]) := by
  constructor
  · intro zs hsort hchain
    match zs with
    | [] => rfl
    | [z] => rfl
    | z1 :: z2 :: rest =>
      rw [mergeAdjacentZones, if_neg (by simp), hsort]
      exact mergeLoop_chain_sep (z2 :: rest) z1 hchain
  · intro a b hsort hadj
    rw [mergeAdjacentZones, if_neg (by simp), hsort]
    show mergeLoop a [b] = _
    rw [mergeLoop, if_pos hadj, mergeLoop, foldZones]

/-- C8 witness: a sorted, fully separated pair is returned unchanged, and
a sorted pair within the 2px gap is folded into the union zone. -/
theorem mergeAdjacentZones_sorted_separated_witness :
    mergeAdjacentZones [zoneA, zoneFar] = [zoneA, zoneFar] ∧
      mergeAdjacentZones [zoneA, zoneB]
        = [{ x := min zoneA.x zoneB.x, y := min zoneA.y zoneB.y,
             w := max (zoneA.x + zoneA.w) (zoneB.x + zoneB.w) - min zoneA.x zoneB.x,
             h := max (zoneA.y + zoneA.h) (zoneB.y + zoneB.h) - min zoneA.y zoneB.y,
             pageIndex := zoneA.pageIndex,
             matchedPhrase := zoneA.matchedPhrase ++ " | " ++ zoneB.matchedPhrase,
             matchedWords := zoneA.matchedWords ++ zoneB.matchedWords }] :=
  ⟨mergeAdjacentZones_sorted_separated.1 [zoneA, zoneFar]
    (by norm_num [zoneSort, insertZone, cmpZones, zoneA, zoneFar])
    (by norm_num [List.chain'_cons, zoneAdjacent, zoneA, zoneFar]),
   mergeAdjacentZones_sorted_separated.2 zoneA zoneB
    (by norm_num [zoneSort, insertZone, cmpZones, zoneA, zoneB])
    (by norm_num [zoneAdjacent, zoneA, zoneB])⟩

/-- C9 counterexample: on a response whose prose contains a stray `]` after
the array, the code's greedy span (first `[` to LAST `]`) is not valid
JSON, so the parser returns [] — although the FIRST JSON array substring
`["a"]` is valid and would yield ["a"], contradicting the claim's "first
JSON array substring" description. -/
theorem forbidden_parse_greedy_span :
    extractArraySpan rawTwoArrays = some ("[\"a\"] y ]") ∧
      jsonParseArr ("[\"a\"] y ]") = none ∧
      jsonParseArr ("[\"a\"]") = some [JItem.jstr ("a")] ∧
      jsTrim ("a") ≠ "" ∧
      parseForbiddenResponse rawTwoArrays = [] := by
  refine ⟨rfl, rfl, rfl, by decide, rfl⟩

/-- C9 (amended): the forbidden-list response parser never throws: it
takes the span from the first `[` through the last `]` (the greedy regex
match, which coincides with the first JSON array substring only when the
prose contains no later bracket); if there is no such span, or the span is
not valid JSON, the result is the empty list; and parsed array entries
that are not strings, or are empty after trimming, are silently filtered
out — so every returned phrase is a nonempty-after-trim string of the
parsed array. -/
theorem forbidden_parse_permissive :
    (∀ raw, extractArraySpan raw = none → parseForbiddenResponse raw = []) ∧
    (∀ raw s, extractArraySpan raw = some s → jsonParseArr s = none →
      parseForbiddenResponse raw = []) ∧
    (∀ raw s items, extractArraySpan raw = some s → jsonParseArr s = some items →
      parseForbiddenResponse raw
        = (items.filterMap (fun it => match it with
            | .jstr t => some t
            | .jother => none)).filter (fun t => jsTrim t != "")) ∧
    (∀ raw t, t ∈ parseForbiddenResponse raw → jsTrim t ≠ "") := by
  refine ⟨?_, ?_, ?_, ?_⟩
  · intro raw h
    simp [parseForbiddenResponse, h]
  · intro raw s h1 h2
    simp [parseForbiddenResponse, h1, h2]
  · intro raw s items h1 h2
    simp [parseForbiddenResponse, h1, h2]
  · intro raw t ht
    rcases he : extractArraySpan raw with _ | s
    · simp only [parseForbiddenResponse, he] at ht
      exact absurd ht (List.not_mem_nil t)
    · rcases hj : jsonParseArr s with _ | items
      · simp only [parseForbiddenResponse, he, hj] at ht
        exact absurd ht (List.not_mem_nil t)
      · simp only [parseForbiddenResponse, he, hj] at ht
        simpa using List.of_mem_filter ht

/-- C9 witness: a response with prose around one array containing a
number, an empty string and a blank string returns exactly the nonempty
strings. -/
theorem forbidden_parse_permissive_witness :
    parseForbiddenResponse rawOneArray = ["a", "b"] := by
  have h := forbidden_parse_permissive.2.2.1 rawOneArray
    ("[\"a\", 1, \"\", \" \", \"b\"]")
    [JItem.jstr ("a"), JItem.jother, JItem.jstr (""), JItem.jstr (" "), JItem.jstr ("b")]
    rfl rfl
  rw [h]
  rfl

theorem geminiItemsLoop_bbox {words : List OCRWord} {page : Nat} :
    ∀ (items : List GeminiItem) (seen : List String) (e : DetectedEntity),
    e ∈ geminiItemsLoop words page items seen →
    findBBoxForString e.value words page = some e.bbox := by
  intro items
  induction items with
  | nil =>
    intro seen e he
    rw [geminiItemsLoop] at he
    exact absurd he (List.not_mem_nil e)
  | cons it rest ih =>
    intro seen e he
    simp only [geminiItemsLoop] at he
    by_cases h1 : (it.text == "") = true
    · rw [if_pos h1] at he
      exact ih _ _ he
    · rw [if_neg h1] at he
      by_cases h2 : (seen.contains (jsToLower (jsTrim it.text))) = true
      · rw [if_pos h2] at he
        exact ih _ _ he
      · rw [if_neg h2] at he
        rcases hb : findBBoxForString (jsTrim it.text) words page with _ | bbox
        · rw [hb] at he
          exact ih _ _ he
        · rw [hb] at he
          rcases List.mem_cons.mp he with h3 | h4
          · subst h3
            exact hb
          · exact ih _ _ h4

/-- C10: in the legacy classifier path, every emitted entity's value was
located by `findBBoxForString` (its bbox is exactly the located one, never
a sentinel), and a string the bbox finder cannot locate produces no entity
at all — for all item lists, word lists and pages. -/
theorem gemini_drops_unlocatable (items : List GeminiItem) (words : List OCRWord)
    (page : Nat) :
    (∀ e ∈ runGeminiDetectionFromItems items words page,
      findBBoxForString e.value words page = some e.bbox) ∧
    (∀ s : String, findBBoxForString s words page = none →
      ∀ e ∈ runGeminiDetectionFromItems items words page, e.value ≠ s) := by
  constructor
  · intro e he
    exact geminiItemsLoop_bbox items [] e he
  · intro s hs e he hv
    have h := geminiItemsLoop_bbox items [] e he
    rw [hv, hs] at h
    exact Option.noConfusion h

/-- C10 witness: with items "John Doe" (locatable) and "zzz" (not
locatable), the pipeline emits an entity only for "John Doe", whose bbox
is the located one; the unlocatable "zzz" yields no entity. -/
theorem gemini_drops_unlocatable_witness :
    findBBoxForString ("John Doe") gemWords 0 = some ⟨0, 0, 70, 10, 0⟩ ∧
      gemEnt.value ≠ "zzz" := by
  have h1 : runGeminiDetectionFromItems gemItems gemWords 0
      = [{ id := "gem_", type := PIIType.NAME, value := "John Doe",
           confidence := 9/10, bbox := firstLastBBox gemWords 0, masked := true,
           layer := 2 }] := rfl
  have h2 : firstLastBBox gemWords 0 = ⟨0, 0, 70, 10, 0⟩ := by
    norm_num [firstLastBBox, listMin, listMax, gemWords, min_def, max_def]
  rw [h2] at h1
  have hmem : gemEnt ∈ runGeminiDetectionFromItems gemItems gemWords 0 := by
    rw [h1]
    exact List.mem_singleton.mpr rfl
  constructor
  · exact (gemini_drops_unlocatable gemItems gemWords 0).1 gemEnt hmem
  · exact (gemini_drops_unlocatable gemItems gemWords 0).2 ("zzz") rfl gemEnt hmem

end HackBell
